import Mathlib

/-!
Shallow embedding of the security-training game's session orchestration and
audit-synthesis code:

* `client/src/types/game.ts` — data model and `calculateGameConfig`
* `client/src/hooks/useGameState.ts` — `initialState` and `gameReducer`
* `client/src/services/hacktron.ts` — `generateMockAudit` fallback audit
* `client/src/App.tsx` — `handleAnswer` endless-mode progression and
  `handleContinueFromEmergency` audit-input filter
-/

namespace SecGame

/-- Game state machine phases (`GamePhase` in `game.ts`). -/
inductive GamePhase
  | IDLE
  | LOADING
  | PLAYING
  | AUDITING
  | DEBRIEF
deriving DecidableEq

/-- Difficulty levels (`Difficulty` in `game.ts`). -/
inductive Difficulty
  | EASY
  | MEDIUM
  | HARD
deriving DecidableEq

/-- Factors that difficulty can affect (`DifficultyFactors` in `game.ts`). -/
structure DifficultyFactors where
  affectsTimer : Bool
  affectsComplexity : Bool
  affectsTaskCount : Bool
deriving DecidableEq

/-- Supported programming languages (`Language` in `game.ts`). -/
inductive Language
  | javascript
  | python
  | java
  | go
  | php
deriving DecidableEq

/-- Types of security vulnerabilities (`VulnerabilityType` in `game.ts`). -/
inductive VulnerabilityType
  | XSS
  | SQL_INJECTION
  | RCE
  | SSRF
  | PATH_TRAVERSAL
  | COMMAND_INJECTION
  | INSECURE_DESERIALIZATION
  | SAFE
deriving DecidableEq

/-- System names for the Among-Us-style task display (`SystemName` in `game.ts`). -/
inductive SystemName
  | O2
  | NAVIGATION
  | SHIELDS
  | REACTOR
  | COMMUNICATIONS
  | ELECTRICAL
  | MEDBAY
  | SECURITY
  | WEAPONS
  | ADMIN
deriving DecidableEq

/-- Task status (`TaskStatus` in `game.ts`). -/
inductive TaskStatus
  | pending
  | completed
  | failed
  | current
deriving DecidableEq

/-- A player answer, `'safe' | 'vulnerable'` in the source. -/
inductive Answer
  | safe
  | vulnerable
deriving DecidableEq

/-- Individual task / code snippet (`Task` in `game.ts`). -/
structure Task where
  id : String
  systemName : SystemName
  code : String
  language : Language
  isVulnerable : Bool
  vulnerabilityType : VulnerabilityType
  vulnerabilityLine : Option Nat
  explanation : Option String
  status : TaskStatus
  userAnswer : Option Answer
deriving DecidableEq

/-- Individual finding in the audit report (`AuditFinding` in `game.ts`). -/
structure CodeLocation where
  line : Nat
  column : Option Nat
deriving DecidableEq

/-- Severity levels used by audit findings. -/
inductive Severity
  | LOW
  | MEDIUM
  | HIGH
  | CRITICAL
deriving DecidableEq

/-- Individual finding in the audit report (`AuditFinding` in `game.ts`). -/
structure AuditFinding where
  taskId : String
  systemName : SystemName
  vulnerability : VulnerabilityType
  severity : Severity
  description : String
  codeLocation : CodeLocation
  remediation : String
  codeSnippet : Option String
deriving DecidableEq

/-- Audit report from Hacktron/Claude (`AuditReport` in `game.ts`). -/
structure AuditReport where
  findings : List AuditFinding
  summary : String
  audioUrl : Option String
deriving DecidableEq

/-- Reason a round ended (`gameOverReason` payload in `useGameState.ts`). -/
inductive GameOverReason
  | timeout
  | wrong_answer
  | completed
deriving DecidableEq

/-- Game configuration based on difficulty (`GameConfig` in `game.ts`). -/
inductive ComplexityLevel
  | basic
  | intermediate
  | advanced
deriving DecidableEq

/-- Output record of `calculateGameConfig` (`GameConfig` in `game.ts`). -/
structure GameConfig where
  taskCount : Nat
  timePerTask : Nat
  complexityLevel : ComplexityLevel
deriving DecidableEq

/-- Main game state (`GameState` in `game.ts`). -/
structure GameState where
  phase : GamePhase
  difficulty : Difficulty
  difficultyFactors : DifficultyFactors
  language : Language
  tasks : List Task
  currentTaskIndex : Nat
  timePerTask : Nat
  timeRemaining : Nat
  score : Nat
  totalCorrect : Nat
  totalIncorrect : Nat
  gameOverReason : Option GameOverReason
  auditReport : Option AuditReport
deriving DecidableEq

/-- `calculateGameConfig` from `game.ts`.  The two `Math.random()` draws used
for task-count jitter (`Math.floor(Math.random() * 2)`, always 0 or 1) are
passed in as the boolean `jitter`.  All multiplications floor exactly as the
JavaScript floats do on every reachable base value (15, 30, 45):
`floor(t * 1.5) = t * 3 / 2` and `floor(t * 0.7) = t * 7 / 10` in those cases. -/
def calculateGameConfig (difficulty : Difficulty) (factors : DifficultyFactors)
    (jitter : Bool) : GameConfig :=
  let factorCount :=
    [factors.affectsTimer, factors.affectsComplexity, factors.affectsTaskCount].countP id
  let timePerTask : Nat :=
    if factorCount = 1 then 15
    else if factorCount = 2 then 30
    else if factorCount = 3 then 45
    else 45
  let taskCount : Nat :=
    if factors.affectsTaskCount then
      match difficulty with
      | .EASY => 3 + (if jitter then 1 else 0)
      | .MEDIUM => 5
      | .HARD => 6 + (if jitter then 1 else 0)
    else 5
  let complexityLevel : ComplexityLevel :=
    if factors.affectsComplexity then
      match difficulty with
      | .EASY => .basic
      | .MEDIUM => .intermediate
      | .HARD => .advanced
    else .basic
  let timePerTask : Nat :=
    if factors.affectsTimer then
      match difficulty with
      | .EASY => timePerTask * 3 / 2
      | .MEDIUM => timePerTask
      | .HARD => timePerTask * 7 / 10
    else timePerTask
  { taskCount := taskCount, timePerTask := timePerTask, complexityLevel := complexityLevel }

/-- Shallow embedding of JavaScript's `array.map((elem, index) => f(index, elem))`. -/
def mapWithIndex (f : Nat → Task → Task) : List Task → List Task
  | [] => []
  | t :: ts => f 0 t :: mapWithIndex (fun i => f (i + 1)) ts

/-- Shallow embedding of JavaScript's `array.some((elem, index) => p(index, elem))`. -/
def anyWithIndex (p : Nat → Task → Bool) : List Task → Bool
  | [] => false
  | t :: ts => p 0 t || anyWithIndex (fun i => p (i + 1)) ts

/-- The actions dispatched to `gameReducer` (`GameAction` in `useGameState.ts`). -/
inductive GameAction
  | START_GAME
  | SET_DIFFICULTY (difficulty : Difficulty) (factors : DifficultyFactors) (jitter : Bool)
  | SET_LANGUAGE (language : Language)
  | START_LOADING
  | LOAD_TASKS (payload : List Task)
  | START_PLAYING
  | ANSWER_TASK (answer : Answer)
  | NEXT_TASK
  | TICK_TIMER
  | TIME_UP
  | GAME_OVER (reason : GameOverReason)
  | START_AUDITING
  | SET_AUDIT_REPORT (report : AuditReport)
  | START_DEBRIEF
  | RESET_GAME
deriving DecidableEq

/-- `initialState` from `useGameState.ts`. -/
def initialState : GameState where
  phase := .IDLE
  difficulty := .MEDIUM
  difficultyFactors :=
    { affectsTimer := true, affectsComplexity := true, affectsTaskCount := false }
  language := .javascript
  tasks := []
  currentTaskIndex := 0
  timePerTask := 30
  timeRemaining := 30
  score := 0
  totalCorrect := 0
  totalIncorrect := 0
  gameOverReason := none
  auditReport := none

/-- The correctness test computed inside the `ANSWER_TASK` case
(`const isCorrect = ...` in `useGameState.ts`). -/
def answerIsCorrect (answer : Answer) (t : Task) : Bool :=
  (decide (answer = Answer.vulnerable) && t.isVulnerable) ||
    (decide (answer = Answer.safe) && !t.isVulnerable)

/-- `gameReducer` from `useGameState.ts`.  The `SET_DIFFICULTY` action carries
the `Math.random()` jitter consumed by `calculateGameConfig`. -/
def gameReducer (state : GameState) (action : GameAction) : GameState :=
  match action with
  | .START_GAME =>
    { state with phase := .IDLE }
  | .SET_DIFFICULTY difficulty factors jitter =>
    let config := calculateGameConfig difficulty factors jitter
    { state with
        difficulty := difficulty
        difficultyFactors := factors
        timePerTask := config.timePerTask
        timeRemaining := config.timePerTask }
  | .SET_LANGUAGE language =>
    { state with language := language }
  | .START_LOADING =>
    { state with
        phase := .LOADING
        tasks := []
        currentTaskIndex := 0
        score := 0
        totalCorrect := 0
        totalIncorrect := 0
        gameOverReason := none
        auditReport := none }
  | .LOAD_TASKS payload =>
    let tasks := mapWithIndex
      (fun index task =>
        { task with status := if index = 0 then .current else .pending }) payload
    { state with tasks := tasks, timeRemaining := state.timePerTask }
  | .START_PLAYING =>
    { state with phase := .PLAYING, timeRemaining := state.timePerTask }
  | .ANSWER_TASK userAnswer =>
    match state.tasks.get? state.currentTaskIndex with
    | none => state
    | some currentTask =>
      let isCorrect := answerIsCorrect userAnswer currentTask
      if userAnswer = Answer.vulnerable ∧ currentTask.isVulnerable = false then
        let updatedTasks := mapWithIndex
          (fun index task =>
            if index = state.currentTaskIndex then
              { task with status := .failed, userAnswer := some userAnswer }
            else task) state.tasks
        { state with
            tasks := updatedTasks
            totalIncorrect := state.totalIncorrect + 1
            gameOverReason := some .wrong_answer
            phase := .AUDITING }
      else
        let updatedTasks := mapWithIndex
          (fun index task =>
            if index = state.currentTaskIndex then
              { task with
                  status := if isCorrect then .completed else .failed
                  userAnswer := some userAnswer }
            else if index = state.currentTaskIndex + 1 then
              { task with status := .current }
            else task) state.tasks
        let newScore := if isCorrect then state.score + 100 else state.score
        let isLastTask := decide (state.tasks.length - 1 ≤ state.currentTaskIndex)
        if isLastTask then
          { state with
              tasks := updatedTasks
              score := newScore
              totalCorrect := if isCorrect then state.totalCorrect + 1 else state.totalCorrect
              totalIncorrect := if isCorrect then state.totalIncorrect else state.totalIncorrect + 1
              gameOverReason := some .completed
              phase := .AUDITING }
        else
          { state with
              tasks := updatedTasks
              score := newScore
              totalCorrect := if isCorrect then state.totalCorrect + 1 else state.totalCorrect
              totalIncorrect := if isCorrect then state.totalIncorrect else state.totalIncorrect + 1
              currentTaskIndex := state.currentTaskIndex + 1
              timeRemaining := state.timePerTask }
  | .NEXT_TASK =>
    let nextIndex := state.currentTaskIndex + 1
    if state.tasks.length ≤ nextIndex then
      { state with gameOverReason := some .completed, phase := .AUDITING }
    else
      let updatedTasks := mapWithIndex
        (fun index task =>
          if index = nextIndex then { task with status := .current } else task) state.tasks
      { state with
          tasks := updatedTasks
          currentTaskIndex := nextIndex
          timeRemaining := state.timePerTask }
  | .TICK_TIMER =>
    if state.timeRemaining ≤ 1 then
      { state with timeRemaining := 0 }
    else
      { state with timeRemaining := state.timeRemaining - 1 }
  | .TIME_UP =>
    let updatedTasks := mapWithIndex
      (fun index task =>
        if index = state.currentTaskIndex then { task with status := .failed } else task)
      state.tasks
    { state with
        tasks := updatedTasks
        gameOverReason := some .timeout
        phase := .AUDITING }
  | .GAME_OVER reason =>
    { state with gameOverReason := some reason, phase := .AUDITING }
  | .START_AUDITING =>
    { state with phase := .AUDITING }
  | .SET_AUDIT_REPORT report =>
    { state with auditReport := some report }
  | .START_DEBRIEF =>
    { state with phase := .DEBRIEF }
  | .RESET_GAME =>
    initialState

/-- States reachable from `initialState` by dispatching reducer actions. -/
inductive Reachable : GameState → Prop
  | init : Reachable initialState
  | step {s : GameState} (h : Reachable s) (a : GameAction) : Reachable (gameReducer s a)

/-- `REMEDIATIONS` table from `hacktron.ts`. -/
def REMEDIATIONS : VulnerabilityType → String
  | .XSS => "Use proper output encoding. For HTML context, use textContent instead of innerHTML. Consider using a templating library with auto-escaping."
  | .SQL_INJECTION => "Use parameterized queries or prepared statements. Never concatenate user input directly into SQL queries."
  | .RCE => "Avoid using shell commands with user input. If necessary, use strict input validation and allowlisting."
  | .SSRF => "Validate and sanitize URLs. Use an allowlist of permitted domains. Disable redirects or validate redirect targets."
  | .PATH_TRAVERSAL => "Sanitize file paths using path.basename() or equivalent. Use an allowlist of permitted directories."
  | .COMMAND_INJECTION => "Avoid shell execution. If required, use parameterized commands and strict input validation."
  | .INSECURE_DESERIALIZATION => "Avoid deserializing untrusted data. Use safe serialization formats like JSON. Implement integrity checks."
  | .SAFE => "No remediation needed - this code follows security best practices."

/-- `SEVERITY_MAP` table from `hacktron.ts`. -/
def SEVERITY_MAP : VulnerabilityType → Severity
  | .XSS => .HIGH
  | .SQL_INJECTION => .CRITICAL
  | .RCE => .CRITICAL
  | .SSRF => .HIGH
  | .PATH_TRAVERSAL => .HIGH
  | .COMMAND_INJECTION => .CRITICAL
  | .INSECURE_DESERIALIZATION => .HIGH
  | .SAFE => .LOW

/-- `DESCRIPTIONS` table from `hacktron.ts`. -/
def DESCRIPTIONS : VulnerabilityType → String
  | .XSS => "Cross-Site Scripting (XSS) vulnerability detected. User input is directly inserted into the DOM without proper sanitization, allowing attackers to inject malicious scripts."
  | .SQL_INJECTION => "SQL Injection vulnerability detected. User input is directly concatenated into SQL queries, allowing attackers to manipulate database operations."
  | .RCE => "Remote Code Execution (RCE) vulnerability detected. User input is passed to system command execution without proper validation."
  | .SSRF => "Server-Side Request Forgery (SSRF) vulnerability detected. The application fetches URLs provided by users without validation, allowing internal network access."
  | .PATH_TRAVERSAL => "Path Traversal vulnerability detected. User input is used in file path construction without proper sanitization, allowing access to arbitrary files."
  | .COMMAND_INJECTION => "Command Injection vulnerability detected. User input is concatenated into shell commands, allowing arbitrary command execution."
  | .INSECURE_DESERIALIZATION => "Insecure Deserialization vulnerability detected. Untrusted data is deserialized without validation, potentially allowing code execution."
  | .SAFE => "This code segment follows security best practices and does not contain obvious vulnerabilities."

/-- JavaScript's `v || 1` on an optional number (`task.vulnerabilityLine || 1`
in `hacktron.ts`): both `undefined` and the falsy `0` coalesce to 1. -/
def jsOrOne (v : Option Nat) : Nat :=
  match v with
  | none => 1
  | some n => if n = 0 then 1 else n

/-- The findings list built inside `generateMockAudit` in `hacktron.ts`:
one finding per vulnerable input task, fields drawn from the three tables. -/
def mockFindings (tasks : List Task) : List AuditFinding :=
  (tasks.filter (fun task => task.isVulnerable)).map fun task =>
    { taskId := task.id
      systemName := task.systemName
      vulnerability := task.vulnerabilityType
      severity := SEVERITY_MAP task.vulnerabilityType
      description := DESCRIPTIONS task.vulnerabilityType
      codeLocation := { line := jsOrOne task.vulnerabilityLine, column := some 1 }
      remediation := REMEDIATIONS task.vulnerabilityType
      codeSnippet := some task.code }

/-- The summary string built inside `generateMockAudit` in `hacktron.ts`
from the findings' total / CRITICAL / HIGH counts. -/
def mockSummary (vulnerableCount criticalCount highCount : Nat) : String :=
  if vulnerableCount = 0 then
    "Security scan complete. All analyzed code segments follow security best practices. No vulnerabilities detected."
  else
    let head := "Security scan detected " ++ toString vulnerableCount ++ " vulnerabilit" ++
      (if vulnerableCount = 1 then "y" else "ies") ++ " across ship systems. "
    let withCritical :=
      if 0 < criticalCount then
        head ++ toString criticalCount ++ " CRITICAL severity issue" ++
          (if criticalCount = 1 then "" else "s") ++ " require immediate attention. "
      else head
    let withHigh :=
      if 0 < highCount then
        withCritical ++ toString highCount ++ " HIGH severity issue" ++
          (if highCount = 1 then "" else "s") ++ " should be addressed promptly. "
      else withCritical
    withHigh ++ "Review the detailed findings below for remediation guidance."

/-- `generateMockAudit` from `hacktron.ts` (the deterministic fallback used
when the remote scanner is unavailable), restricted to the report payload. -/
def generateMockAudit (tasks : List Task) : AuditReport :=
  let findings := mockFindings tasks
  let vulnerableCount := findings.length
  let criticalCount := (findings.filter (fun f => decide (f.severity = Severity.CRITICAL))).length
  let highCount := (findings.filter (fun f => decide (f.severity = Severity.HIGH))).length
  { findings := findings
    summary := mockSummary vulnerableCount criticalCount highCount
    audioUrl := none }

/-- The `tasksToAudit` filter in `handleContinueFromEmergency` (`App.tsx`):
endless mode audits only the failed tasks, the normal path also audits
vulnerable tasks that were never completed. -/
def tasksToAudit (endlessMode : Bool) (tasks : List Task) : List Task :=
  if endlessMode then
    tasks.filter (fun t => decide (t.status = TaskStatus.failed))
  else
    tasks.filter (fun t =>
      decide (t.status = TaskStatus.failed) ||
        (t.isVulnerable && !decide (t.status = TaskStatus.completed)))

/-- The next-stage conditional in `handleAnswer` (`App.tsx`):
`EASY → MEDIUM`, `MEDIUM → HARD`, otherwise `HARD`. -/
def nextEndlessStage : Difficulty → Difficulty
  | .EASY => .MEDIUM
  | .MEDIUM => .HARD
  | .HARD => .HARD

/-- Outcome of the `handleAnswer` callback in `App.tsx`, as observed through
the actions it dispatches and the batch request it issues. -/
inductive AnswerOutcome
  | ignored
  | endRun
  | escalate (stage : Difficulty) (batchCount : Nat)
  | roundOver
  | advance
deriving DecidableEq

/-- The control flow of `handleAnswer` in `App.tsx`.  `escalate stage count`
records the `generateEndlessBatch` request (which asks the snippet generator
for `count = 5` tasks at difficulty `stage`); `endRun` is the
`gameOver("wrong_answer")` dispatch; `roundOver` shows the emergency overlay. -/
def handleAnswerDecision (endlessMode : Bool) (tasks : List Task) (currentTaskIndex : Nat)
    (endlessStage : Difficulty) (answer : Answer) : AnswerOutcome :=
  match tasks.get? currentTaskIndex with
  | none => .ignored
  | some currentTask =>
    let isCorrect := answerIsCorrect answer currentTask
    if endlessMode && !isCorrect then .endRun
    else
      let isLastTask := decide (tasks.length - 1 ≤ currentTaskIndex)
      if endlessMode && isLastTask then
        let previousFailed := anyWithIndex
          (fun idx task => !decide (idx = currentTaskIndex) &&
            decide (task.status = TaskStatus.failed)) tasks
        if isCorrect && !previousFailed then
          .escalate (nextEndlessStage endlessStage) 5
        else if isLastTask then .roundOver
        else .advance
      else if isLastTask then .roundOver
      else .advance

/-! ### Sample data used by witnesses and counterexamples -/

/-- A safe snippet, shown as the current task. -/
def safeTask : Task where
  id := "t-safe"
  systemName := .O2
  code := "const x = 1;"
  language := .javascript
  isVulnerable := false
  vulnerabilityType := .SAFE
  vulnerabilityLine := none
  explanation := none
  status := .current
  userAnswer := none

/-- A vulnerable snippet. -/
def vulnTask : Task where
  id := "t-vuln"
  systemName := .REACTOR
  code := "db.query(sql + input)"
  language := .javascript
  isVulnerable := true
  vulnerabilityType := .SQL_INJECTION
  vulnerabilityLine := some 3
  explanation := none
  status := .current
  userAnswer := none

/-- A mid-round state in phase PLAYING with a safe current task. -/
def playingState : GameState :=
  { initialState with
      phase := .PLAYING
      tasks := [safeTask, { vulnTask with status := .pending }]
      currentTaskIndex := 0 }

/-! ### Helper lemmas about `mapWithIndex` and `anyWithIndex` -/

theorem mapWithIndex_congr {f g : Nat → Task → Task} (h : ∀ i t, f i t = g i t) :
    ∀ l : List Task, mapWithIndex f l = mapWithIndex g l := by
  intro l
  induction l generalizing f g with
  | nil => rfl
  | cons a l ih =>
    simp only [mapWithIndex, h 0 a]
    exact congrArg _ (ih fun i t => h (i + 1) t)

theorem mapWithIndex_eq_self {f : Nat → Task → Task} (h : ∀ i t, f i t = t) :
    ∀ l : List Task, mapWithIndex f l = l := by
  intro l
  induction l generalizing f with
  | nil => rfl
  | cons a l ih =>
    simp only [mapWithIndex, h 0 a]
    exact congrArg _ (ih fun i t => h (i + 1) t)

theorem length_mapWithIndex (f : Nat → Task → Task) :
    ∀ l : List Task, (mapWithIndex f l).length = l.length := by
  intro l
  induction l generalizing f with
  | nil => rfl
  | cons a l ih => simp only [mapWithIndex, List.length_cons, ih]

theorem get?_mapWithIndex (f : Nat → Task → Task) :
    ∀ (l : List Task) (i : Nat), (mapWithIndex f l).get? i = (l.get? i).map (f i) := by
  intro l
  induction l generalizing f with
  | nil => intro i; rfl
  | cons a l ih =>
    intro i
    cases i with
    | zero => rfl
    | succ j => exact ih (fun i => f (i + 1)) j

theorem mapWithIndex_mapWithIndex (f g : Nat → Task → Task) :
    ∀ l : List Task, mapWithIndex g (mapWithIndex f l) = mapWithIndex (fun i t => g i (f i t)) l := by
  intro l
  induction l generalizing f g with
  | nil => rfl
  | cons a l ih => simp only [mapWithIndex]; exact congrArg _ (ih _ _)

/-! ### Claim theorems -/

/-- **C1.** From any PLAYING state whose current task is not vulnerable,
submitting the answer `vulnerable` (a false accusation) moves the reducer to
phase AUDITING with `gameOverReason = wrong_answer`, marks that task `failed`,
and increments `totalIncorrect` by one — for every `currentTaskIndex` and any
number of remaining tasks. -/
theorem false_accusation_ends_round (s : GameState) (t : Task)
    (hphase : s.phase = GamePhase.PLAYING)
    (ht : s.tasks.get? s.currentTaskIndex = some t)
    (hsafe : t.isVulnerable = false) :
    (gameReducer s (.ANSWER_TASK .vulnerable)).phase = GamePhase.AUDITING ∧
      (gameReducer s (.ANSWER_TASK .vulnerable)).gameOverReason =
        some GameOverReason.wrong_answer ∧
      (gameReducer s (.ANSWER_TASK .vulnerable)).tasks.get? s.currentTaskIndex =
        some { t with status := TaskStatus.failed, userAnswer := some Answer.vulnerable } ∧
      (gameReducer s (.ANSWER_TASK .vulnerable)).totalIncorrect = s.totalIncorrect + 1 := by
  simp only [gameReducer, ht]
  split
  · refine ⟨rfl, rfl, ?_, rfl⟩
    rw [get?_mapWithIndex, ht]
    simp
  · next hcond => simp [hsafe] at hcond

/-- Witness for C1 at a concrete PLAYING state with a safe current task. -/
theorem false_accusation_ends_round_witness :
    (gameReducer playingState (.ANSWER_TASK .vulnerable)).phase = GamePhase.AUDITING ∧
      (gameReducer playingState (.ANSWER_TASK .vulnerable)).gameOverReason =
        some GameOverReason.wrong_answer ∧
      (gameReducer playingState (.ANSWER_TASK .vulnerable)).tasks.get?
          playingState.currentTaskIndex =
        some { safeTask with status := TaskStatus.failed, userAnswer := some Answer.vulnerable } ∧
      (gameReducer playingState (.ANSWER_TASK .vulnerable)).totalIncorrect =
        playingState.totalIncorrect + 1 :=
  false_accusation_ends_round playingState safeTask rfl rfl rfl

/-- **C10.** When no task exists at `currentTaskIndex` (empty list or index past
the end), `ANSWER_TASK` returns the state unchanged. -/
theorem answer_without_current_task (s : GameState) (ans : Answer)
    (h : s.tasks.get? s.currentTaskIndex = none) :
    gameReducer s (.ANSWER_TASK ans) = s := by
  simp only [gameReducer, h]

/-- Witness for C10: the initial state has no task at index 0. -/
theorem answer_without_current_task_witness :
    gameReducer initialState (.ANSWER_TASK .safe) = initialState :=
  answer_without_current_task initialState .safe rfl

/-- **C9.** Each `TICK_TIMER` action decrements `timeRemaining` by exactly one,
floored at zero (ticking at zero leaves zero), and `timeRemaining ≤ timePerTask`
holds in the initial state and is preserved by every reducer action
(`timeRemaining` is a natural number, so it is never negative). -/
theorem tick_timer_spec :
    (∀ s : GameState, (gameReducer s .TICK_TIMER).timeRemaining = s.timeRemaining - 1) ∧
      (∀ s : GameState, s.timeRemaining = 0 →
        (gameReducer s .TICK_TIMER).timeRemaining = 0) ∧
      initialState.timeRemaining ≤ initialState.timePerTask ∧
      (∀ (s : GameState) (a : GameAction), s.timeRemaining ≤ s.timePerTask →
        (gameReducer s a).timeRemaining ≤ (gameReducer s a).timePerTask) := by
  refine ⟨?_, ?_, ?_, ?_⟩
  · intro s
    simp only [gameReducer]
    split
    · next hle => simp; omega
    · next hle => simp
  · intro s h
    simp [gameReducer, h]
  · exact Nat.le_refl 30
  · intro s a h
    cases a with
    | ANSWER_TASK ans =>
      simp only [gameReducer]
      cases hg : s.tasks.get? s.currentTaskIndex with
      | none => exact h
      | some t =>
        simp only []
        split
        · exact h
        · split <;> simp <;> exact h
    | TICK_TIMER =>
      simp only [gameReducer]
      split <;> simp <;> omega
    | NEXT_TASK =>
      simp only [gameReducer]
      split <;> simp <;> exact h
    | _ => first
        | exact h
        | simp [gameReducer, initialState]

/-- Witness for C9's conditional parts at concrete states. -/
theorem tick_timer_spec_witness :
    (gameReducer { initialState with timeRemaining := 0 } .TICK_TIMER).timeRemaining = 0 ∧
      (gameReducer playingState .TICK_TIMER).timeRemaining ≤
        (gameReducer playingState .TICK_TIMER).timePerTask :=
  ⟨tick_timer_spec.2.1 { initialState with timeRemaining := 0 } rfl,
    tick_timer_spec.2.2.2 playingState .TICK_TIMER (by decide)⟩

/-- **C2.** `score = 100 * totalCorrect` holds initially and is preserved by
every reducer action; a correct answer adds exactly 100 to `score` and one to
`totalCorrect` (leaving `totalIncorrect` alone), an incorrect answer leaves
`score` and `totalCorrect` unchanged and adds one to `totalIncorrect`, and no
answer ever decreases `score`. -/
theorem score_invariant :
    initialState.score = 100 * initialState.totalCorrect ∧
      (∀ (s : GameState) (a : GameAction), s.score = 100 * s.totalCorrect →
        (gameReducer s a).score = 100 * (gameReducer s a).totalCorrect) ∧
      (∀ (s : GameState) (ans : Answer) (t : Task),
        s.tasks.get? s.currentTaskIndex = some t → answerIsCorrect ans t = true →
        (gameReducer s (.ANSWER_TASK ans)).score = s.score + 100 ∧
          (gameReducer s (.ANSWER_TASK ans)).totalCorrect = s.totalCorrect + 1 ∧
          (gameReducer s (.ANSWER_TASK ans)).totalIncorrect = s.totalIncorrect) ∧
      (∀ (s : GameState) (ans : Answer) (t : Task),
        s.tasks.get? s.currentTaskIndex = some t → answerIsCorrect ans t = false →
        (gameReducer s (.ANSWER_TASK ans)).score = s.score ∧
          (gameReducer s (.ANSWER_TASK ans)).totalCorrect = s.totalCorrect ∧
          (gameReducer s (.ANSWER_TASK ans)).totalIncorrect = s.totalIncorrect + 1) ∧
      (∀ (s : GameState) (ans : Answer), s.score ≤ (gameReducer s (.ANSWER_TASK ans)).score) := by
  refine ⟨rfl, ?_, ?_, ?_, ?_⟩
  · intro s a h
    cases a with
    | ANSWER_TASK ans =>
      simp only [gameReducer]
      cases hg : s.tasks.get? s.currentTaskIndex with
      | none => exact h
      | some t =>
        simp only []
        split
        · exact h
        · cases hC : answerIsCorrect ans t <;> split <;> simp <;> omega
    | NEXT_TASK =>
      simp only [gameReducer]
      split <;> exact h
    | TICK_TIMER =>
      simp only [gameReducer]
      split <;> exact h
    | _ => first
        | exact h
        | simp [gameReducer, initialState]
  · intro s ans t hg hC
    simp only [gameReducer, hg]
    split
    · next hcond =>
      obtain ⟨ha, hv⟩ := hcond
      subst ha
      simp [answerIsCorrect, hv] at hC
    · split <;> simp [hC]
  · intro s ans t hg hC
    simp only [gameReducer, hg]
    split
    · exact ⟨rfl, rfl, rfl⟩
    · split <;> simp [hC]
  · intro s ans
    simp only [gameReducer]
    cases hg : s.tasks.get? s.currentTaskIndex with
    | none => exact Nat.le_refl _
    | some t =>
      simp only []
      split
      · exact Nat.le_refl _
      · split <;> simp only [] <;> split <;> omega

/-- Witness for C2 at a concrete PLAYING state: preservation under a tick, a
correct `safe` answer, and an incorrect `vulnerable` answer. -/
theorem score_invariant_witness :
    (gameReducer playingState .TICK_TIMER).score =
        100 * (gameReducer playingState .TICK_TIMER).totalCorrect ∧
      ((gameReducer playingState (.ANSWER_TASK .safe)).score = playingState.score + 100 ∧
        (gameReducer playingState (.ANSWER_TASK .safe)).totalCorrect =
          playingState.totalCorrect + 1 ∧
        (gameReducer playingState (.ANSWER_TASK .safe)).totalIncorrect =
          playingState.totalIncorrect) ∧
      ((gameReducer playingState (.ANSWER_TASK .vulnerable)).score = playingState.score ∧
        (gameReducer playingState (.ANSWER_TASK .vulnerable)).totalCorrect =
          playingState.totalCorrect ∧
        (gameReducer playingState (.ANSWER_TASK .vulnerable)).totalIncorrect =
          playingState.totalIncorrect + 1) :=
  ⟨score_invariant.2.1 playingState .TICK_TIMER rfl,
    score_invariant.2.2.1 playingState .safe safeTask rfl rfl,
    score_invariant.2.2.2.1 playingState .vulnerable safeTask rfl rfl⟩

/-- The factor count computed at the top of `calculateGameConfig`. -/
def factorCountOf (factors : DifficultyFactors) : Nat :=
  [factors.affectsTimer, factors.affectsComplexity, factors.affectsTaskCount].countP id

/-- **C7.** For every difficulty, jitter, and factor selection with at least
one active factor, the resolved `timePerTask` is the base `15 * activeFactors`
(15/30/45 seconds for 1/2/3 factors), multiplied — only when `affectsTimer` is
set — by 1.5 for EASY, 1.0 for MEDIUM, 0.7 for HARD, and floored; in
particular HARD with only the timer factor yields `floor(15 * 0.7) = 10`. -/
theorem config_resolver_time :
    (∀ (d : Difficulty) (f : DifficultyFactors) (j : Bool),
        1 ≤ factorCountOf f →
        (calculateGameConfig d f j).timePerTask =
          (if f.affectsTimer then
            (if d = .EASY then 15 * factorCountOf f * 3 / 2
              else if d = .HARD then 15 * factorCountOf f * 7 / 10
              else 15 * factorCountOf f)
            else 15 * factorCountOf f)) ∧
      (∀ j : Bool,
        (calculateGameConfig .HARD
            { affectsTimer := true, affectsComplexity := false, affectsTaskCount := false }
            j).timePerTask = 10) := by
  constructor
  · intro d f j
    rcases f with ⟨a, b, c⟩
    cases d <;> cases a <;> cases b <;> cases c <;> cases j <;> decide
  · intro j
    cases j <;> decide

/-- Witness for C7: two concrete factor selections. -/
theorem config_resolver_time_witness :
    (calculateGameConfig .MEDIUM
        { affectsTimer := true, affectsComplexity := true, affectsTaskCount := false }
        false).timePerTask = 30 ∧
      (calculateGameConfig .HARD
          { affectsTimer := true, affectsComplexity := false, affectsTaskCount := false }
          false).timePerTask = 10 := by
  constructor
  · have h := config_resolver_time.1 .MEDIUM
      { affectsTimer := true, affectsComplexity := true, affectsTaskCount := false }
      false (by decide)
    simpa using h
  · exact config_resolver_time.2 false

/-- Modelled from the spec: the audit input it prescribes for every round —
"the set of tasks in status `failed`, plus any task where `isVulnerable` is
true but status is not `completed`" — with no dependence on endless mode. -/
def specAuditInput (tasks : List Task) : List Task :=
  tasks.filter (fun t =>
    decide (t.status = TaskStatus.failed) ||
      (t.isVulnerable && !decide (t.status = TaskStatus.completed)))

/-- **C5 counterexample.** In endless mode a vulnerable task that was never
reached (status `pending`) is *not* audited, while the spec's filter keeps it:
the two filters differ. -/
theorem audit_filter_mode_counterexample :
    tasksToAudit true [{ vulnTask with status := TaskStatus.pending }] = [] ∧
      specAuditInput [{ vulnTask with status := TaskStatus.pending }] =
        [{ vulnTask with status := TaskStatus.pending }] ∧
      tasksToAudit true [{ vulnTask with status := TaskStatus.pending }] ≠
        specAuditInput [{ vulnTask with status := TaskStatus.pending }] := by
  refine ⟨rfl, rfl, ?_⟩
  decide

/-- **C5 (amended).** The audit input depends on the mode: with endless mode
off it is the spec's set (status `failed`, plus vulnerable tasks not
`completed`), but with endless mode on it is only the tasks in status
`failed`. -/
theorem audit_filter_by_mode :
    ∀ (endlessMode : Bool) (tasks : List Task) (t : Task),
      t ∈ tasksToAudit endlessMode tasks ↔
        t ∈ tasks ∧
          (if endlessMode then t.status = TaskStatus.failed
            else t.status = TaskStatus.failed ∨
              (t.isVulnerable = true ∧ t.status ≠ TaskStatus.completed)) := by
  intro endlessMode tasks t
  cases endlessMode <;>
    simp [tasksToAudit, List.mem_filter, and_assoc]

/-- Witness for C5's amended statement: a failed task is audited in endless
mode. -/
theorem audit_filter_by_mode_witness :
    { vulnTask with status := TaskStatus.failed } ∈
      tasksToAudit true [{ vulnTask with status := TaskStatus.failed }] :=
  (audit_filter_by_mode true [{ vulnTask with status := TaskStatus.failed }]
      { vulnTask with status := TaskStatus.failed }).2 (by decide)

/-- The finding `generateMockAudit` would emit for `vulnTask`. -/
def vulnFinding : AuditFinding where
  taskId := "t-vuln"
  systemName := .REACTOR
  vulnerability := .SQL_INJECTION
  severity := .CRITICAL
  description := DESCRIPTIONS .SQL_INJECTION
  codeLocation := { line := 3, column := some 1 }
  remediation := REMEDIATIONS .SQL_INJECTION
  codeSnippet := some "db.query(sql + input)"

/-- A vulnerable task whose recorded vulnerable line is 0. -/
def zeroLineTask : Task := { vulnTask with id := "t-zero", vulnerabilityLine := some 0 }

/-- **C6 counterexample.** `hacktron.ts` computes the finding's line as
`task.vulnerabilityLine || 1`: JavaScript's `||` coalesces a *present* 0 to 1
as well, so for a task with `vulnerabilityLine = 0` the emitted line is 1,
not the task's `vulnerabilityLine` as the claim ("or 1 if absent") asserts. -/
theorem mock_audit_line_counterexample :
    (generateMockAudit [zeroLineTask]).findings.map (fun f => f.codeLocation.line) = [1] ∧
      zeroLineTask.vulnerabilityLine = some 0 ∧
      ¬(∀ f ∈ (generateMockAudit [zeroLineTask]).findings,
          f.codeLocation.line = zeroLineTask.vulnerabilityLine.getD 1) := by
  refine ⟨rfl, rfl, ?_⟩
  decide

/-- **C6 (amended).** The fallback audit emits exactly one finding per
vulnerable input task (none for the rest); each finding's severity,
description and remediation come from the fixed tables keyed by the task's
`vulnerabilityType`, its column is 1, and its line is the task's
`vulnerabilityLine` when that is present and nonzero, and 1 when it is absent
*or zero* (the code's JavaScript `||` treats a present 0 as falsy); the
severity table is XSS→HIGH, SQL_INJECTION→CRITICAL, RCE→CRITICAL, SSRF→HIGH,
PATH_TRAVERSAL→HIGH, COMMAND_INJECTION→CRITICAL,
INSECURE_DESERIALIZATION→HIGH, SAFE→LOW. -/
theorem mock_audit_findings (tasks : List Task) :
    (generateMockAudit tasks).findings.length = tasks.countP (fun t => t.isVulnerable) ∧
      (∀ f ∈ (generateMockAudit tasks).findings, ∃ t, t ∈ tasks ∧ t.isVulnerable = true ∧
        f.taskId = t.id ∧ f.systemName = t.systemName ∧
        f.vulnerability = t.vulnerabilityType ∧
        f.severity = SEVERITY_MAP t.vulnerabilityType ∧
        f.description = DESCRIPTIONS t.vulnerabilityType ∧
        f.remediation = REMEDIATIONS t.vulnerabilityType ∧
        (∀ n, t.vulnerabilityLine = some n → 0 < n → f.codeLocation.line = n) ∧
        (t.vulnerabilityLine = none ∨ t.vulnerabilityLine = some 0 →
          f.codeLocation.line = 1) ∧
        f.codeLocation.column = some 1 ∧
        f.codeSnippet = some t.code) ∧
      SEVERITY_MAP .XSS = .HIGH ∧ SEVERITY_MAP .SQL_INJECTION = .CRITICAL ∧
      SEVERITY_MAP .RCE = .CRITICAL ∧ SEVERITY_MAP .SSRF = .HIGH ∧
      SEVERITY_MAP .PATH_TRAVERSAL = .HIGH ∧ SEVERITY_MAP .COMMAND_INJECTION = .CRITICAL ∧
      SEVERITY_MAP .INSECURE_DESERIALIZATION = .HIGH ∧ SEVERITY_MAP .SAFE = .LOW := by
  refine ⟨?_, ?_, rfl, rfl, rfl, rfl, rfl, rfl, rfl, rfl⟩
  · show (mockFindings tasks).length = _
    simp [mockFindings, List.countP_eq_length_filter]
  · intro f hf
    have hf' : f ∈ mockFindings tasks := hf
    simp only [mockFindings, List.mem_map, List.mem_filter] at hf'
    obtain ⟨t, ⟨ht, hv⟩, hfe⟩ := hf'
    subst hfe
    refine ⟨t, ht, hv, rfl, rfl, rfl, rfl, rfl, rfl, ?_, ?_, rfl, rfl⟩
    · intro n hn hpos
      show jsOrOne t.vulnerabilityLine = n
      rw [hn]
      simp only [jsOrOne]
      rw [if_neg (by omega)]
    · rintro (hn | hn) <;>
        · show jsOrOne t.vulnerabilityLine = 1
          rw [hn]
          rfl

/-- Witness for C6's amended statement: the finding produced for the concrete
vulnerable task, whose recorded line 3 is kept. -/
theorem mock_audit_findings_witness :
    ∃ t, t ∈ [vulnTask] ∧ t.isVulnerable = true ∧
      vulnFinding.taskId = t.id ∧ vulnFinding.systemName = t.systemName ∧
      vulnFinding.vulnerability = t.vulnerabilityType ∧
      vulnFinding.severity = SEVERITY_MAP t.vulnerabilityType ∧
      vulnFinding.description = DESCRIPTIONS t.vulnerabilityType ∧
      vulnFinding.remediation = REMEDIATIONS t.vulnerabilityType ∧
      (∀ n, t.vulnerabilityLine = some n → 0 < n → vulnFinding.codeLocation.line = n) ∧
      (t.vulnerabilityLine = none ∨ t.vulnerabilityLine = some 0 →
        vulnFinding.codeLocation.line = 1) ∧
      vulnFinding.codeLocation.column = some 1 ∧
      vulnFinding.codeSnippet = some t.code :=
  (mock_audit_findings [vulnTask]).2.1 vulnFinding (by decide)

/-- **C8.** In endless mode, answering the last task of a batch correctly with
no other failed task escalates the stage one step along EASY → MEDIUM → HARD
(clamped at HARD) and requests a new 5-task batch at that stage; any incorrect
answer instead ends the run, and the dispatched
`ANSWER_TASK`/`GAME_OVER wrong_answer` pair lands in AUDITING. -/
theorem endless_escalation :
    (∀ (tasks : List Task) (idx : Nat) (stage : Difficulty) (ans : Answer) (t : Task),
        tasks.get? idx = some t → answerIsCorrect ans t = true →
        tasks.length - 1 ≤ idx →
        anyWithIndex (fun i task =>
          !decide (i = idx) && decide (task.status = TaskStatus.failed)) tasks = false →
        handleAnswerDecision true tasks idx stage ans =
          .escalate (nextEndlessStage stage) 5) ∧
      nextEndlessStage .EASY = .MEDIUM ∧
      nextEndlessStage .MEDIUM = .HARD ∧
      nextEndlessStage .HARD = .HARD ∧
      (∀ (tasks : List Task) (idx : Nat) (stage : Difficulty) (ans : Answer) (t : Task),
        tasks.get? idx = some t → answerIsCorrect ans t = false →
        handleAnswerDecision true tasks idx stage ans = .endRun) ∧
      (∀ (s : GameState) (ans : Answer),
        (gameReducer (gameReducer s (.ANSWER_TASK ans)) (.GAME_OVER .wrong_answer)).phase =
            GamePhase.AUDITING ∧
          (gameReducer (gameReducer s (.ANSWER_TASK ans))
              (.GAME_OVER .wrong_answer)).gameOverReason =
            some GameOverReason.wrong_answer) := by
  refine ⟨?_, rfl, rfl, rfl, ?_, ?_⟩
  · intro tasks idx stage ans t hget hcorrect hlast hprev
    simp only [handleAnswerDecision]
    rw [hget]
    simp [hcorrect, hprev, hlast]
  · intro tasks idx stage ans t hget hcorrect
    simp only [handleAnswerDecision]
    rw [hget]
    simp [hcorrect]
  · intro s ans
    exact ⟨rfl, rfl⟩

/-- Witness for C8: a concrete last-task correct answer escalates EASY to
MEDIUM with a 5-task batch request. -/
theorem endless_escalation_witness :
    handleAnswerDecision true [{ safeTask with status := TaskStatus.completed }, vulnTask]
        1 .EASY .vulnerable = .escalate .MEDIUM 5 :=
  endless_escalation.1 [{ safeTask with status := TaskStatus.completed }, vulnTask]
    1 .EASY .vulnerable vulnTask (by decide) (by decide) (by decide) (by decide)

/-- A task whose type is `SAFE` yet flagged vulnerable; its finding gets
severity LOW, so it contributes to neither the CRITICAL nor the HIGH count. -/
def oddVulnTask : Task :=
  { vulnTask with
      id := "t-odd"
      vulnerabilityType := .SAFE
      vulnerabilityLine := none
      status := .pending }

/-- **C4 counterexample.** For 2 findings with 1 CRITICAL and 0 HIGH the code
writes "1 CRITICAL severity issue require immediate attention." — the verb is
always "require", never the singular "requires" the claim prescribes. -/
theorem fallback_summary_counterexample :
    (generateMockAudit [vulnTask, oddVulnTask]).summary =
        "Security scan detected 2 vulnerabilities across ship systems. 1 CRITICAL severity issue require immediate attention. Review the detailed findings below for remediation guidance." ∧
      (generateMockAudit [vulnTask, oddVulnTask]).summary ≠
        "Security scan detected 2 vulnerabilities across ship systems. 1 CRITICAL severity issue requires immediate attention. Review the detailed findings below for remediation guidance." := by
  constructor
  · rfl
  · decide

/-- Modelled from the spec (amended): the deterministic fallback summary — a
fixed no-vulnerabilities sentence for zero findings; otherwise the total count
with "vulnerability"/"vulnerabilities", a CRITICAL clause when that count is
positive and a HIGH clause when that count is positive, each pluralizing the
noun "issue"/"issues" (the CRITICAL verb is invariably "require"), then a
fixed closing sentence. -/
def specFallbackSummary (v c h : Nat) : String :=
  if v = 0 then
    "Security scan complete. All analyzed code segments follow security best practices. No vulnerabilities detected."
  else
    "Security scan detected " ++ toString v ++
      (if v = 1 then " vulnerability" else " vulnerabilities") ++ " across ship systems. " ++
      (if 0 < c then
        toString c ++
          (if c = 1 then " CRITICAL severity issue" else " CRITICAL severity issues") ++
          " require immediate attention. "
      else "") ++
      (if 0 < h then
        toString h ++
          (if h = 1 then " HIGH severity issue" else " HIGH severity issues") ++
          " should be addressed promptly. "
      else "") ++
      "Review the detailed findings below for remediation guidance."

theorem strMerge (a b c : String) (h : a ++ b = c) (x : String) :
    a ++ (b ++ x) = c ++ x := by
  rw [← String.append_assoc, h]

theorem empty_append_str (x : String) : "" ++ x = x := rfl

theorem mockSummary_eq_spec : ∀ v c h : Nat, mockSummary v c h = specFallbackSummary v c h := by
  intro v c h
  unfold mockSummary specFallbackSummary
  by_cases hv : v = 0
  · rw [if_pos hv, if_pos hv]
  · rw [if_neg hv, if_neg hv]
    by_cases hv1 : v = 1 <;> by_cases hc : 0 < c <;> by_cases hc1 : c = 1 <;>
      by_cases hh : 0 < h <;> by_cases hh1 : h = 1 <;>
      first
        | omega
        | simp only [hv1, hc, hc1, hh, hh1, eq_self_iff_true, Nat.zero_lt_one,
            if_true, if_false, ite_true, ite_false, String.append_assoc,
            strMerge " vulnerabilit" "y" " vulnerability" rfl,
            strMerge " vulnerabilit" "ies" " vulnerabilities" rfl,
            strMerge " CRITICAL severity issue" "" " CRITICAL severity issue" rfl,
            strMerge " CRITICAL severity issue" "s" " CRITICAL severity issues" rfl,
            strMerge " HIGH severity issue" "" " HIGH severity issue" rfl,
            strMerge " HIGH severity issue" "s" " HIGH severity issues" rfl,
            empty_append_str]

/-- **C4 (amended).** The fallback summary is exactly the deterministic text
of the spec with one correction: the CRITICAL clause's verb is invariably
"require" (so for a singular CRITICAL count the sentence reads "1 CRITICAL
severity issue require immediate attention."). -/
theorem fallback_summary_text (tasks : List Task) :
    (generateMockAudit tasks).summary =
      specFallbackSummary (generateMockAudit tasks).findings.length
        ((generateMockAudit tasks).findings.filter
          (fun f => decide (f.severity = Severity.CRITICAL))).length
        ((generateMockAudit tasks).findings.filter
          (fun f => decide (f.severity = Severity.HIGH))).length :=
  mockSummary_eq_spec _ _ _

/-- A task counts as done when its status is `completed` or `failed`. -/
def isDone (t : Task) : Bool :=
  decide (t.status = TaskStatus.completed) || decide (t.status = TaskStatus.failed)

/-- Number of tasks whose status is `completed` or `failed`. -/
def countDone (l : List Task) : Nat := l.countP isDone

theorem countDone_cons (t : Task) (l : List Task) :
    countDone (t :: l) = countDone l + (if isDone t then 1 else 0) := by
  simp [countDone, List.countP_cons]

theorem countDone_le_length (l : List Task) : countDone l ≤ l.length :=
  List.countP_le_length _

/-- Updating a list at one in-range index changes `countDone` exactly by the
done-ness delta of that element. -/
theorem countDone_mapWithIndex :
    ∀ (l : List Task) (f : Nat → Task → Task) (idx : Nat) (t : Task),
      l.get? idx = some t →
      (∀ i task, i ≠ idx → f i task = task) →
      countDone (mapWithIndex f l) + (if isDone t then 1 else 0) =
        countDone l + (if isDone (f idx t) then 1 else 0) := by
  intro l
  induction l with
  | nil => intro f idx t h _; cases h
  | cons a l ih =>
    intro f idx t h hf
    cases idx with
    | zero =>
      injection h with h
      subst h
      simp only [mapWithIndex]
      have htail : mapWithIndex (fun i => f (i + 1)) l = l :=
        mapWithIndex_eq_self (fun i task => hf (i + 1) task (Nat.succ_ne_zero i)) l
      rw [htail, countDone_cons, countDone_cons]
      omega
    | succ j =>
      simp only [mapWithIndex]
      rw [hf 0 a (Nat.succ_ne_zero j).symm]
      rw [countDone_cons, countDone_cons]
      have hrec := ih (fun i => f (i + 1)) j t h (fun i task hi => hf (i + 1) task (by omega))
      dsimp only at hrec
      omega

/-- Updating a list at an out-of-range index leaves it unchanged. -/
theorem mapWithIndex_eq_self_of_none :
    ∀ (l : List Task) (f : Nat → Task → Task) (idx : Nat),
      l.get? idx = none →
      (∀ i task, i ≠ idx → f i task = task) →
      mapWithIndex f l = l := by
  intro l
  induction l with
  | nil => intro f idx _ _; rfl
  | cons a l ih =>
    intro f idx h hf
    cases idx with
    | zero => cases h
    | succ j =>
      simp only [mapWithIndex]
      rw [hf 0 a (Nat.succ_ne_zero j).symm]
      rw [ih (fun i => f (i + 1)) j h (fun i task hi => hf (i + 1) task (by omega))]

theorem isDone_set_status (x : Task) (st : TaskStatus) :
    isDone { x with status := st } =
      (decide (st = TaskStatus.completed) || decide (st = TaskStatus.failed)) := rfl

theorem isDone_set_status_answer (x : Task) (st : TaskStatus) (ua : Option Answer) :
    isDone { x with status := st, userAnswer := ua } =
      (decide (st = TaskStatus.completed) || decide (st = TaskStatus.failed)) := rfl

/-- `countDone_mapWithIndex` specialised to a single-point update. -/
theorem countDone_update_at (g : Task → Task) (l : List Task) (idx : Nat) (t : Task)
    (hget : l.get? idx = some t) :
    countDone (mapWithIndex (fun i task => if i = idx then g task else task) l) +
        (if isDone t then 1 else 0) =
      countDone l + (if isDone (g t) then 1 else 0) := by
  have h := countDone_mapWithIndex l (fun i task => if i = idx then g task else task)
    idx t hget (fun i task hi => if_neg hi)
  simpa using h

/-- Updating the element at `idx` and — done-neutrally — the one at `idx + 1`
changes `countDone` exactly by the delta at `idx`. -/
theorem countDone_two_point (l : List Task) (idx : Nat) (A B : Task → Task) (t : Task)
    (hget : l.get? idx = some t)
    (hB : ∀ u, l.get? (idx + 1) = some u → isDone (B u) = isDone u) :
    countDone (mapWithIndex
        (fun i task =>
          if i = idx then A task else if i = idx + 1 then B task else task) l) +
        (if isDone t then 1 else 0) =
      countDone l + (if isDone (A t) then 1 else 0) := by
  have hdecomp : mapWithIndex
      (fun i task => if i = idx then A task else if i = idx + 1 then B task else task) l =
      mapWithIndex (fun i task => if i = idx + 1 then B task else task)
        (mapWithIndex (fun i task => if i = idx then A task else task) l) := by
    rw [mapWithIndex_mapWithIndex]
    apply mapWithIndex_congr
    intro i task
    by_cases h1 : i = idx <;> by_cases h2 : i = idx + 1
    · omega
    · simp [h1, h2]
    · simp [h1, h2]
    · simp [h1, h2]
  rw [hdecomp]
  have h1 := countDone_update_at A l idx t hget
  cases hu : l.get? (idx + 1) with
  | none =>
    have hnone : (mapWithIndex (fun i task => if i = idx then A task else task) l).get?
        (idx + 1) = none := by
      rw [get?_mapWithIndex, hu]; rfl
    rw [mapWithIndex_eq_self_of_none _ _ _ hnone (fun i task hi => if_neg hi)]
    exact h1
  | some u =>
    have hget1 : (mapWithIndex (fun i task => if i = idx then A task else task) l).get?
        (idx + 1) = some u := by
      rw [get?_mapWithIndex, hu]
      simp only [Option.map_some']
      rw [if_neg (by omega)]
    have h2 := countDone_update_at B _ (idx + 1) u hget1
    rw [hB u hu] at h2
    omega

/-- The batch installed by `LOAD_TASKS` has no completed/failed task. -/
theorem countDone_loadTasks (payload : List Task) :
    countDone (mapWithIndex
      (fun index task =>
        { task with status := if index = 0 then .current else .pending }) payload) = 0 := by
  suffices h : ∀ (f : Nat → Task → Task),
      (∀ i task, isDone (f i task) = false) →
      countDone (mapWithIndex f payload) = 0 by
    refine h _ ?_
    intro i task
    by_cases hi : i = 0 <;> simp [hi, isDone]
  induction payload with
  | nil => intro f _; rfl
  | cons a l ih =>
    intro f hf
    simp only [mapWithIndex]
    rw [countDone_cons, hf 0 a, ih _ (fun i task => hf (i + 1) task)]
    rfl

/-- **C3 counterexample.** A reachable state — load one task, let the timer
expire — where `totalCorrect + totalIncorrect` is 0 but one task has status
`failed`: `TIME_UP` marks the current task failed without touching either
counter, so the claimed equality fails on reachable states. -/
theorem counts_equality_counterexample :
    Reachable (gameReducer (gameReducer initialState (.LOAD_TASKS [vulnTask])) .TIME_UP) ∧
      ¬((gameReducer (gameReducer initialState (.LOAD_TASKS [vulnTask])) .TIME_UP).totalCorrect +
          (gameReducer (gameReducer initialState
            (.LOAD_TASKS [vulnTask])) .TIME_UP).totalIncorrect =
        countDone
          (gameReducer (gameReducer initialState (.LOAD_TASKS [vulnTask])) .TIME_UP).tasks) :=
  ⟨Reachable.step (Reachable.step Reachable.init (.LOAD_TASKS [vulnTask])) .TIME_UP, by decide⟩

/-- **C3 (amended).** `totalCorrect + totalIncorrect = #{completed, failed}`
holds initially and forces the `≤ len(tasks)` bound; it is preserved
unconditionally by every action other than `LOAD_TASKS`, `ANSWER_TASK`,
`NEXT_TASK` and `TIME_UP`; by `LOAD_TASKS` when both counters are zero; by
`ANSWER_TASK` when the current task and its successor (if any) are not yet
completed/failed; and by `NEXT_TASK` when the successor is not yet
completed/failed.  `TIME_UP` does **not** preserve it: it marks the current
task failed without incrementing `totalIncorrect`, leaving the
completed/failed count one above the counter sum. -/
theorem counts_vs_done_tasks :
    (initialState.totalCorrect + initialState.totalIncorrect = countDone initialState.tasks) ∧
      (∀ s : GameState, s.totalCorrect + s.totalIncorrect = countDone s.tasks →
        s.totalCorrect + s.totalIncorrect ≤ s.tasks.length) ∧
      (∀ (s : GameState) (a : GameAction),
        (∀ ans, a ≠ .ANSWER_TASK ans) → (∀ ts, a ≠ .LOAD_TASKS ts) →
        a ≠ .NEXT_TASK → a ≠ .TIME_UP →
        s.totalCorrect + s.totalIncorrect = countDone s.tasks →
        (gameReducer s a).totalCorrect + (gameReducer s a).totalIncorrect =
          countDone (gameReducer s a).tasks) ∧
      (∀ (s : GameState) (ts : List Task), s.totalCorrect = 0 → s.totalIncorrect = 0 →
        (gameReducer s (.LOAD_TASKS ts)).totalCorrect +
            (gameReducer s (.LOAD_TASKS ts)).totalIncorrect =
          countDone (gameReducer s (.LOAD_TASKS ts)).tasks) ∧
      (∀ (s : GameState) (ans : Answer) (t : Task),
        s.tasks.get? s.currentTaskIndex = some t → isDone t = false →
        (∀ u, s.tasks.get? (s.currentTaskIndex + 1) = some u → isDone u = false) →
        s.totalCorrect + s.totalIncorrect = countDone s.tasks →
        (gameReducer s (.ANSWER_TASK ans)).totalCorrect +
            (gameReducer s (.ANSWER_TASK ans)).totalIncorrect =
          countDone (gameReducer s (.ANSWER_TASK ans)).tasks) ∧
      (∀ s : GameState,
        (∀ u, s.tasks.get? (s.currentTaskIndex + 1) = some u → isDone u = false) →
        s.totalCorrect + s.totalIncorrect = countDone s.tasks →
        (gameReducer s .NEXT_TASK).totalCorrect + (gameReducer s .NEXT_TASK).totalIncorrect =
          countDone (gameReducer s .NEXT_TASK).tasks) ∧
      (∀ (s : GameState) (t : Task),
        s.tasks.get? s.currentTaskIndex = some t → isDone t = false →
        s.totalCorrect + s.totalIncorrect = countDone s.tasks →
        countDone (gameReducer s .TIME_UP).tasks =
          (gameReducer s .TIME_UP).totalCorrect +
            (gameReducer s .TIME_UP).totalIncorrect + 1) := by
  refine ⟨rfl, ?_, ?_, ?_, ?_, ?_, ?_⟩
  · intro s h
    rw [h]
    exact countDone_le_length _
  · intro s a hans hload hnext htime h
    cases a with
    | ANSWER_TASK ans => exact absurd rfl (hans ans)
    | LOAD_TASKS ts => exact absurd rfl (hload ts)
    | NEXT_TASK => exact absurd rfl hnext
    | TIME_UP => exact absurd rfl htime
    | TICK_TIMER =>
      simp only [gameReducer]
      split <;> exact h
    | START_LOADING => simp [gameReducer, countDone]
    | RESET_GAME => rfl
    | _ => exact h
  · intro s ts h1 h2
    simp only [gameReducer]
    rw [countDone_loadTasks]
    simp [h1, h2]
  · intro s ans t hget hdone hnextu h
    simp only [gameReducer, hget]
    split
    · -- false accusation branch: one task flips to failed, totalIncorrect + 1
      have hc := countDone_update_at
        (fun task => { task with status := .failed, userAnswer := some ans })
        s.tasks s.currentTaskIndex t hget
      simp only [isDone_set_status_answer, hdone] at hc
      simp at hc
      dsimp only
      omega
    · -- normal branch: the current task flips to completed/failed and the
      -- successor (done-neutral by hypothesis) becomes current
      have hc := countDone_two_point s.tasks s.currentTaskIndex
        (fun task =>
          { task with
              status := if answerIsCorrect ans t then .completed else .failed
              userAnswer := some ans })
        (fun task => { task with status := .current }) t hget
        (fun u hu => by rw [isDone_set_status, hnextu u hu]; rfl)
      simp only [isDone_set_status_answer, hdone] at hc
      cases hC : answerIsCorrect ans t <;>
        simp only [hC] at hc ⊢ <;>
        simp at hc ⊢ <;>
        split <;>
        (try dsimp only) <;>
        omega
  · intro s hnextu h
    simp only [gameReducer]
    split
    · exact h
    · next hlt =>
      have hlt' : s.currentTaskIndex + 1 < s.tasks.length := by omega
      obtain ⟨u, hu⟩ : ∃ u, s.tasks.get? (s.currentTaskIndex + 1) = some u :=
        ⟨_, List.get?_eq_get hlt'⟩
      have hc := countDone_update_at (fun task => { task with status := .current })
        s.tasks (s.currentTaskIndex + 1) u hu
      simp only [isDone_set_status, hnextu u hu] at hc
      simp at hc
      dsimp only
      omega
  · intro s t hget hdone h
    simp only [gameReducer]
    have hc := countDone_update_at (fun task => { task with status := .failed })
      s.tasks s.currentTaskIndex t hget
    simp only [isDone_set_status, hdone] at hc
    simp at hc
    try dsimp only
    omega

/-- Witness for C3's amended statement at a concrete PLAYING state: a `safe`
answer keeps the equality, a timeout pushes the done-count one above it. -/
theorem counts_vs_done_tasks_witness :
    (gameReducer playingState (.ANSWER_TASK .safe)).totalCorrect +
        (gameReducer playingState (.ANSWER_TASK .safe)).totalIncorrect =
      countDone (gameReducer playingState (.ANSWER_TASK .safe)).tasks ∧
      countDone (gameReducer playingState .TIME_UP).tasks =
        (gameReducer playingState .TIME_UP).totalCorrect +
          (gameReducer playingState .TIME_UP).totalIncorrect + 1 :=
  ⟨counts_vs_done_tasks.2.2.2.2.1 playingState .safe safeTask rfl rfl
      (fun u hu => by injection hu with h2; rw [← h2]; rfl) rfl,
    counts_vs_done_tasks.2.2.2.2.2.2 playingState safeTask rfl rfl rfl⟩

end SecGame
